import Mathlib

/-!
Verification of the clinic-management service core.

This development shallowly embeds the domain core of the service
(`internal/service`, `internal/validation`, and the SQL queries under
`db/query`) into Lean. The relational store is modelled as an explicit
record of tables (lists of rows); every `sqlc` query becomes a pure
function over that record, soft deletion is a nullable timestamp, and
each use-case function returns `Except DomainError` together with the
post-transaction state. External collaborators (the CNPJ/CPF check-digit
library, the RFC e-mail parser, the UUID parser and the UUIDv7
generator) are passed in as function parameters, mirroring their role
as injected dependencies.
-/

set_option maxHeartbeats 1600000

/-- Go `unicode.IsSpace`: the Unicode White_Space property. -/
def goIsSpace (c : Char) : Bool :=
  let n := c.toNat
  (9 ≤ n && n ≤ 13) || n == 32 || n == 133 || n == 160 || n == 5760 ||
  (8192 ≤ n && n ≤ 8202) || n == 8232 || n == 8233 || n == 8239 ||
  n == 8287 || n == 12288

/-- Go `strings.TrimSpace` on a character list: drop leading and
trailing white space. -/
def goTrimSpaceList (l : List Char) : List Char :=
  ((l.dropWhile goIsSpace).reverse.dropWhile goIsSpace).reverse

/-- Go `strings.TrimSpace`. -/
def goTrimSpace (s : String) : String :=
  String.mk (goTrimSpaceList s.data)

/-- ASCII decimal digit, the class `\d` of the `nonDigits` regexp. -/
def isDigitChar (c : Char) : Bool :=
  48 ≤ c.toNat && c.toNat ≤ 57

/-- ASCII upper-case letter. -/
def isUpperChar (c : Char) : Bool :=
  65 ≤ c.toNat && c.toNat ≤ 90

/-- ASCII lower-case letter. -/
def isLowerChar (c : Char) : Bool :=
  97 ≤ c.toNat && c.toNat ≤ 122

/-- The character class `[0-9A-Za-z]` kept by the `nonAlphanumeric`
regexp of `internal/validation`. -/
def isAlphaNumChar (c : Char) : Bool :=
  isDigitChar c || isUpperChar c || isLowerChar c

/-- Go `strings.ToUpper` restricted to one character; on the ASCII
output of the alphanumeric filter this is exactly ASCII upcasing. -/
def upperChar (c : Char) : Char :=
  if isLowerChar c then Char.ofNat (c.toNat - 32) else c

/-- `validation.NormalizeCNPJ`: trim space, strip every character
outside `[0-9A-Za-z]`, and upper-case the remainder. -/
def NormalizeCNPJ (raw : String) : String :=
  String.mk (((goTrimSpaceList raw.data).filter isAlphaNumChar).map upperChar)

/-- `validation.NormalizeCPF`: strip every non-digit character. -/
def NormalizeCPF (raw : String) : String :=
  String.mk (raw.data.filter isDigitChar)

theorem upperChar_of_not_lower {c : Char} (h : isLowerChar c = false) :
    upperChar c = c := by
  simp [upperChar, h]

theorem toNat_upperChar_of_lower {c : Char} (h : isLowerChar c = true) :
    (upperChar c).toNat = c.toNat - 32 := by
  have hn : 97 ≤ c.toNat ∧ c.toNat ≤ 122 := by
    simpa [isLowerChar, Bool.and_eq_true, decide_eq_true_eq] using h
  have hv : (c.toNat - 32).isValidChar := Or.inl (by omega)
  simp only [upperChar, h, if_true]
  show (Char.ofNat (c.toNat - 32)).toNat = c.toNat - 32
  unfold Char.ofNat
  rw [dif_pos hv]
  rfl

theorem upperChar_alphaNum {c : Char} (h : isAlphaNumChar c = true) :
    isAlphaNumChar (upperChar c) = true ∧ goIsSpace (upperChar c) = false ∧
      upperChar (upperChar c) = upperChar c := by
  rcases Bool.or_eq_true _ _ |>.mp h with h₁ | hl
  · have hnotl : isLowerChar c = false := by
      rcases Bool.or_eq_true _ _ |>.mp h₁ with hd | hu
      · simp [isDigitChar, Bool.and_eq_true, decide_eq_true_eq] at hd
        simp [isLowerChar, Bool.and_eq_true, decide_eq_true_eq]
        omega
      · simp [isUpperChar, Bool.and_eq_true, decide_eq_true_eq] at hu
        simp [isLowerChar, Bool.and_eq_true, decide_eq_true_eq]
        omega
    have hu : upperChar c = c := by simp [upperChar, hnotl]
    rcases Bool.or_eq_true _ _ |>.mp h₁ with hd | hup
    · simp [isDigitChar, Bool.and_eq_true, decide_eq_true_eq] at hd
      refine ⟨by rw [hu]; exact h, ?_, by rw [hu, hu]⟩
      rw [hu]
      simp [goIsSpace, Bool.and_eq_true, decide_eq_true_eq]
      omega
    · simp [isUpperChar, Bool.and_eq_true, decide_eq_true_eq] at hup
      refine ⟨by rw [hu]; exact h, ?_, by rw [hu, hu]⟩
      rw [hu]
      simp [goIsSpace, Bool.and_eq_true, decide_eq_true_eq]
      omega
  · have ht := toNat_upperChar_of_lower hl
    have hn : 97 ≤ c.toNat ∧ c.toNat ≤ 122 := by
      simpa [isLowerChar, Bool.and_eq_true, decide_eq_true_eq] using hl
    have hup : isUpperChar (upperChar c) = true := by
      simp [isUpperChar, Bool.and_eq_true, decide_eq_true_eq, ht]
      omega
    have hnotl' : isLowerChar (upperChar c) = false := by
      simp [isLowerChar, Bool.and_eq_true, decide_eq_true_eq, ht]
      omega
    refine ⟨by simp [isAlphaNumChar, hup], ?_, ?_⟩
    · simp [goIsSpace, Bool.and_eq_true, decide_eq_true_eq, ht]
      omega
    · exact upperChar_of_not_lower hnotl'

theorem mem_normalized_alphaNum {raw : String} {c : Char}
    (h : c ∈ (NormalizeCNPJ raw).data) :
    isAlphaNumChar c = true ∧ goIsSpace c = false ∧ upperChar c = c := by
  simp only [NormalizeCNPJ] at h
  rcases List.mem_map.mp h with ⟨d, hd, rfl⟩
  have hda := List.of_mem_filter hd
  rcases upperChar_alphaNum hda with ⟨h₁, h₂, h₃⟩
  exact ⟨h₁, h₂, h₃⟩

theorem goTrimSpaceList_of_no_space {l : List Char}
    (h : ∀ c ∈ l, goIsSpace c = false) : goTrimSpaceList l = l := by
  have h₁ : l.dropWhile goIsSpace = l := by
    cases l with
    | nil => rfl
    | cons a t => simp [List.dropWhile_cons, h a (by simp)]
  have h₂ : l.reverse.dropWhile goIsSpace = l.reverse := by
    cases hr : l.reverse with
    | nil => rfl
    | cons a t =>
      have ha : a ∈ l := by
        have : a ∈ l.reverse := by rw [hr]; simp
        simpa using this
      simp [List.dropWhile_cons, h a ha]
  simp [goTrimSpaceList, h₁, h₂]

/-- `NormalizeCNPJ` is idempotent. -/
theorem NormalizeCNPJ_idem (raw : String) :
    NormalizeCNPJ (NormalizeCNPJ raw) = NormalizeCNPJ raw := by
  have hmem : ∀ c ∈ (NormalizeCNPJ raw).data,
      isAlphaNumChar c = true ∧ goIsSpace c = false ∧ upperChar c = c :=
    fun c h => mem_normalized_alphaNum h
  have htrim : goTrimSpaceList (NormalizeCNPJ raw).data =
      (NormalizeCNPJ raw).data :=
    goTrimSpaceList_of_no_space (fun c h => (hmem c h).2.1)
  have hfilter : (NormalizeCNPJ raw).data.filter isAlphaNumChar =
      (NormalizeCNPJ raw).data :=
    List.filter_eq_self.mpr (fun c h => (hmem c h).1)
  have hmap : (NormalizeCNPJ raw).data.map upperChar =
      (NormalizeCNPJ raw).data := by
    have hmap' : (NormalizeCNPJ raw).data.map upperChar =
        (NormalizeCNPJ raw).data.map id :=
      List.map_congr_left (fun c h => (hmem c h).2.2)
    simpa using hmap'
  show String.mk (((goTrimSpaceList (NormalizeCNPJ raw).data).filter
      isAlphaNumChar).map upperChar) = NormalizeCNPJ raw
  rw [htrim, hfilter, hmap]

/-- The sentinel error taxonomy of `internal/service/errors.go`
(`ErrValidation`, `ErrNotFound`, `ErrConflict`, `ErrUnauthorized`),
wrapped with a detail message; `internal` stands for an unclassified
storage failure passed through unchanged. -/
inductive DomainError where
  | validation (msg : String)
  | notFound (msg : String)
  | conflict (msg : String)
  | unauthorized (msg : String)
  | internal (msg : String)
deriving DecidableEq, Repr

/-- The two PostgreSQL constraint-violation classes the service
classifies (`23505` and `23503`). -/
inductive PgError where
  | uniqueViolation
  | foreignKeyViolation
deriving DecidableEq, Repr

/-- `mapDatabaseError`: unique violation becomes `Conflict`, foreign-key
violation becomes `Validation`. -/
def mapDatabaseError : PgError → DomainError
  | .uniqueViolation => .conflict "resource already exists"
  | .foreignKeyViolation => .validation "invalid relationship reference"

/-- A row of the `people` table; `deletedAt` models the nullable
`deleted_at` timestamp, `none` meaning live. -/
structure Person where
  id : String
  personType : String
  taxIDType : String
  taxIDNumber : String
  legalName : String
  tradeName : Option String
  email : Option String
  phone : Option String
  deletedAt : Option Nat
deriving DecidableEq, Repr

/-- A row of the `clinics` table. -/
structure Clinic where
  id : String
  personID : String
  deletedAt : Option Nat
deriving DecidableEq, Repr

/-- A row of the `dentists` table. -/
structure Dentist where
  id : String
  personID : String
  deletedAt : Option Nat
deriving DecidableEq, Repr

/-- A row of the `clinic_dentists` affiliation table; `endedAt = none`
means the affiliation is active. -/
structure ClinicDentist where
  clinicID : String
  dentistID : String
  isAdmin : Bool
  isLegalRepresentative : Bool
  startedAt : Nat
  endedAt : Option Nat
deriving DecidableEq, Repr

/-- A row of the `bank_accounts` table. -/
structure BankAccount where
  id : String
  clinicID : String
  bankCode : String
  branchNumber : String
  accountNumber : String
  deletedAt : Option Nat
deriving DecidableEq, Repr

/-- The relational store: one list of rows per table. -/
structure Database where
  people : List Person
  clinics : List Clinic
  dentists : List Dentist
  clinicDentists : List ClinicDentist
  bankAccounts : List BankAccount
deriving DecidableEq, Repr

/-- Query `GetClinicByID`: the clinic with the given id whose
`deleted_at IS NULL`, if any. -/
def Query.GetClinicByID (db : Database) (id : String) : Option Clinic :=
  (db.clinics.filter (fun c => c.id == id && c.deletedAt.isNone)).head?

/-- Query `ListBankAccountsByClinicID`: all non-deleted accounts of the
clinic. -/
def Query.ListBankAccountsByClinicID (db : Database) (clinicID : String) :
    List BankAccount :=
  db.bankAccounts.filter (fun b => b.clinicID == clinicID && b.deletedAt.isNone)

/-- Query `DeleteBankAccountByIDAndClinicID`: soft-delete the matching
non-deleted account; returns the number of affected rows and the new
state. -/
def Query.DeleteBankAccountByIDAndClinicID (t : Nat) (db : Database)
    (id clinicID : String) : Nat × Database :=
  let hit := fun (b : BankAccount) =>
    b.id == id && b.clinicID == clinicID && b.deletedAt.isNone
  (db.bankAccounts.countP hit,
   { db with bankAccounts :=
      db.bankAccounts.map (fun b =>
        if hit b then { b with deletedAt := some t } else b) })

/-- Query `CreateBankAccount`: insert a fresh row; a duplicate primary
key raises the unique-violation class. -/
def Query.CreateBankAccount (db : Database) (b : BankAccount) :
    Except PgError Database :=
  if db.bankAccounts.any (fun x => x.id == b.id) then .error .uniqueViolation
  else .ok { db with bankAccounts := db.bankAccounts ++ [b] }

/-- Query `CreatePerson`: insert a person; the partial unique index
`idx_people_tax_id_number_active_unique` (and the primary key) raise
the unique-violation class. -/
def Query.CreatePerson (db : Database) (p : Person) :
    Except PgError Database :=
  if db.people.any (fun q =>
      q.id == p.id || (q.taxIDNumber == p.taxIDNumber && q.deletedAt.isNone))
  then .error .uniqueViolation
  else .ok { db with people := db.people ++ [p] }

/-- Query `CreateClinic`: insert a clinic; the partial unique index
`idx_clinics_person_id_active_unique` (and the primary key) raise the
unique-violation class. -/
def Query.CreateClinic (db : Database) (c : Clinic) :
    Except PgError Database :=
  if db.clinics.any (fun x =>
      x.id == c.id || (x.personID == c.personID && x.deletedAt.isNone))
  then .error .uniqueViolation
  else .ok { db with clinics := db.clinics ++ [c] }

/-- Query `UpdatePerson`: COALESCE-update the mutable fields of the
matching non-deleted person. -/
def Query.UpdatePerson (db : Database) (id : String)
    (legalName tradeName email phone : Option String) : Database :=
  { db with people :=
      db.people.map (fun p =>
        if p.id == id && p.deletedAt.isNone then
          { p with
            legalName := legalName.getD p.legalName
            tradeName := (tradeName.map some).getD p.tradeName
            email := (email.map some).getD p.email
            phone := (phone.map some).getD p.phone }
        else p) }

/-- Query `GetActiveClinicDentist`: the affiliation row for the pair
with `ended_at IS NULL` (the schema's partial unique index allows at
most one). -/
def Query.GetActiveClinicDentist (db : Database)
    (clinicID dentistID : String) : Option ClinicDentist :=
  (db.clinicDentists.filter (fun r =>
    r.clinicID == clinicID && r.dentistID == dentistID && r.endedAt.isNone)).head?

/-- Query `CountActiveClinicLinksByDentist`: how many active
affiliations the dentist has across all clinics. -/
def Query.CountActiveClinicLinksByDentist (db : Database)
    (dentistID : String) : Nat :=
  db.clinicDentists.countP (fun r =>
    r.dentistID == dentistID && r.endedAt.isNone)

/-- Query `EndClinicDentist`: set `ended_at` on the active rows of the
pair; returns the number of affected rows and the new state. -/
def Query.EndClinicDentist (t : Nat) (db : Database)
    (clinicID dentistID : String) : Nat × Database :=
  let hit := fun (r : ClinicDentist) =>
    r.clinicID == clinicID && r.dentistID == dentistID && r.endedAt.isNone
  (db.clinicDentists.countP hit,
   { db with clinicDentists :=
      db.clinicDentists.map (fun r =>
        if hit r then { r with endedAt := some t } else r) })

/-- Query `UpdateClinicDentistRole`: COALESCE-update the role flags of
the active rows of the pair, returning the updated row (`sql.ErrNoRows`
modelled as `none`). -/
def Query.UpdateClinicDentistRole (db : Database)
    (clinicID dentistID : String) (isAdmin isLegalRep : Option Bool) :
    Option ClinicDentist × Database :=
  let hit := fun (r : ClinicDentist) =>
    r.clinicID == clinicID && r.dentistID == dentistID && r.endedAt.isNone
  let upd := fun (r : ClinicDentist) =>
    { r with
      isAdmin := isAdmin.getD r.isAdmin
      isLegalRepresentative := isLegalRep.getD r.isLegalRepresentative }
  ((db.clinicDentists.filter hit).head?.map upd,
   { db with clinicDentists :=
      db.clinicDentists.map (fun r => if hit r then upd r else r) })

/-- The schema invariant of `idx_clinic_dentists_active_unique`: no two
rows of `clinic_dentists` share a (clinic, dentist) pair while both are
active. -/
def pairActiveUnique (db : Database) : Prop :=
  db.clinicDentists.Pairwise (fun a b =>
    ¬(a.clinicID = b.clinicID ∧ a.dentistID = b.dentistID ∧
      a.endedAt = none ∧ b.endedAt = none))

instance (db : Database) : Decidable (pairActiveUnique db) := by
  unfold pairActiveUnique
  exact List.instDecidablePairwise _

/-- `optionalString`: a nil or whitespace-only optional input is stored
as SQL NULL; any other value is stored trimmed. -/
def optionalString (value : Option String) : Option String :=
  match value with
  | none => none
  | some v =>
    let trimmed := goTrimSpace v
    if trimmed == "" then none else some trimmed

/-- `optionalBool`: a nil flag becomes SQL NULL. -/
def optionalBool (value : Option Bool) : Option Bool := value

/-- `normalizeCursorLimit`: non-positive limits fall back to the
default of 20, limits above 100 are clamped to 100. -/
def normalizeCursorLimit (limit : Int) : Nat :=
  if limit ≤ 0 then 20
  else if limit > 100 then 100
  else limit.toNat

/-- `lockClinicForUpdate`: `SELECT id FROM clinics WHERE id = $1 AND
deleted_at IS NULL FOR UPDATE`; `sql.ErrNoRows` becomes `NotFound`.
The lock itself is a serialization device with no visible effect on the
sequential state. -/
def lockClinicForUpdate (db : Database) (clinicID : String) :
    Except DomainError Unit :=
  match Query.GetClinicByID db clinicID with
  | none => .error (.notFound "clinic not found")
  | some _ => .ok ()

/-- Input for one bank account of a create/update request. -/
structure BankAccountInput where
  bankCode : String
  branchNumber : String
  accountNumber : String
deriving DecidableEq, Repr

/-- `UpdateClinicInput`: every field is optional; `none` means the
field was absent from the request body. -/
structure UpdateClinicInput where
  legalName : Option String
  tradeName : Option String
  email : Option String
  phone : Option String
  bankAccounts : Option (List BankAccountInput)
  bankAccountIDsToRemove : Option (List String)
deriving DecidableEq, Repr

/-- `validateBankAccountInput`: each of the three fields must be
non-blank. -/
def validateBankAccountInput (input : BankAccountInput) : Option String :=
  if goTrimSpace input.bankCode == "" then some "bank_code is required"
  else if goTrimSpace input.branchNumber == "" then
    some "branch_number is required"
  else if goTrimSpace input.accountNumber == "" then
    some "account_number is required"
  else none

/-- `validateBankAccountsInput`: first failing account wins, wrapped as
a `Validation` error. -/
def validateBankAccountsInput (accounts : List BankAccountInput) :
    Option DomainError :=
  (accounts.enum.findSome? (fun (idx, account) =>
    (validateBankAccountInput account).map (fun msg =>
      DomainError.validation
        ("bank_accounts[" ++ toString idx ++ "]: " ++ msg))))

/-- The observable statement order of one `UpdateClinic` transaction:
row mutations and the clinic row lock. -/
inductive Ev where
  | evUpdatePerson
  | evInsertAccount (id : String)
  | evLockClinic
  | evRemoveAccount (id : String)
deriving DecidableEq, Repr

/-- Whether a statement mutates a row (everything except the lock). -/
def isMutationEv : Ev → Bool
  | .evLockClinic => false
  | _ => true

/-- Whether a statement is a bank-account removal. -/
def isRemoveEv : Ev → Bool
  | .evRemoveAccount _ => true
  | _ => false

/-- The bank-account insert loop of `UpdateClinic` / `CreateClinic`:
fresh UUIDv7 ids come from `gen`, fields are trimmed before storage. -/
def insertAccountsAux (gen : Nat → String) (clinicID : String) :
    Nat → Database → List BankAccountInput → List Ev × Except PgError Database
  | _, db, [] => ([], .ok db)
  | i, db, account :: rest =>
    match Query.CreateBankAccount db
        { id := gen i
          clinicID := clinicID
          bankCode := goTrimSpace account.bankCode
          branchNumber := goTrimSpace account.branchNumber
          accountNumber := goTrimSpace account.accountNumber
          deletedAt := none } with
    | .error e => ([Ev.evInsertAccount (gen i)], .error e)
    | .ok db' =>
      let next := insertAccountsAux gen clinicID (i + 1) db' rest
      (Ev.evInsertAccount (gen i) :: next.1, next.2)

/-- The bank-account removal loop of `UpdateClinic`: each id is trimmed
and soft-deleted; zero affected rows aborts with `NotFound`. -/
def applyAccountRemovals (t : Nat) (clinicID : String) :
    Database → List String → List Ev × Except DomainError Database
  | db, [] => ([], .ok db)
  | db, accountID :: rest =>
    let step := Query.DeleteBankAccountByIDAndClinicID t db
      (goTrimSpace accountID) clinicID
    if step.1 == 0 then
      ([Ev.evRemoveAccount accountID], .error (.notFound "bank account not found"))
    else
      let next := applyAccountRemovals t clinicID step.2 rest
      (Ev.evRemoveAccount accountID :: next.1, next.2)

/-- The removal branch of `UpdateClinic`: when removal ids were
supplied, first lock the clinic row (`FOR UPDATE`), then apply each
soft-delete. -/
def removalPhase (t : Nat) (clinicID : String) (db2 : Database)
    (removeIDs : Option (List String)) :
    List Ev × Except DomainError Database :=
  match removeIDs with
  | none => ([], .ok db2)
  | some ids =>
    match lockClinicForUpdate db2 clinicID with
    | .error e => ([Ev.evLockClinic], .error e)
    | .ok _ =>
      let step := applyAccountRemovals t clinicID db2 ids
      (Ev.evLockClinic :: step.1, step.2)

/-- The body of the `UpdateClinic` transaction before the final
bank-account count check: load the clinic, update person fields if any
were supplied, insert the supplied accounts, then (only when removals
were requested) lock the clinic row and apply the removals. -/
def Service.UpdateClinicCore (gen : Nat → String) (t : Nat) (db : Database)
    (clinicID : String) (input : UpdateClinicInput) :
    List Ev × Except DomainError Database :=
  match Query.GetClinicByID db clinicID with
  | none => ([], .error (.notFound "clinic not found"))
  | some clinic =>
    let step1 : List Ev × Database :=
      if input.legalName.isSome || input.tradeName.isSome ||
          input.email.isSome || input.phone.isSome then
        ([Ev.evUpdatePerson],
         Query.UpdatePerson db clinic.personID (optionalString input.legalName)
           (optionalString input.tradeName) (optionalString input.email)
           (optionalString input.phone))
      else ([], db)
    let step2 : List Ev × Except PgError Database :=
      match input.bankAccounts with
      | none => ([], .ok step1.2)
      | some accounts => insertAccountsAux gen clinicID 0 step1.2 accounts
    match step2.2 with
    | .error e => (step1.1 ++ step2.1, .error (mapDatabaseError e))
    | .ok db2 =>
      let step3 := removalPhase t clinicID db2 input.bankAccountIDsToRemove
      (step1.1 ++ step2.1 ++ step3.1, step3.2)

/-- The invariant check closing the `UpdateClinic` transaction: after
all inserts and removals, the clinic must still own a non-deleted
account, otherwise the transaction fails with `Validation`. -/
def ensureActiveBankAccount (clinicID : String) (db : Database) :
    Except DomainError Database :=
  if (Query.ListBankAccountsByClinicID db clinicID).length == 0 then
    .error (.validation "clinic must have at least one active bank account")
  else .ok db

/-- The full `UpdateClinic` transaction (post input validation). -/
def Service.UpdateClinicTx (gen : Nat → String) (t : Nat) (db : Database)
    (clinicID : String) (input : UpdateClinicInput) :
    List Ev × Except DomainError Database :=
  match Service.UpdateClinicCore gen t db clinicID input with
  | (evs, .error e) => (evs, .error e)
  | (evs, .ok db2) => (evs, ensureActiveBankAccount clinicID db2)

/-- The input-validation prelude of `UpdateClinic`; `validEmail` stands
for `validation.ValidateEmail`, `isUUIDv7` for the `uuid.Parse` +
version check. -/
def validateUpdateClinicInput (validEmail isUUIDv7 : String → Bool)
    (input : UpdateClinicInput) : Option DomainError :=
  if input.legalName.isNone && input.tradeName.isNone &&
      input.email.isNone && input.phone.isNone &&
      input.bankAccounts.isNone && input.bankAccountIDsToRemove.isNone then
    some (.validation "at least one field must be provided")
  else if input.legalName.any (fun v => goTrimSpace v == "") then
    some (.validation "legal_name cannot be empty")
  else if input.email.any (fun v =>
      goTrimSpace v != "" && !(validEmail v)) then
    some (.validation "invalid email")
  else if input.bankAccounts.any (fun l => l.isEmpty) then
    some (.validation
      "bank_accounts must contain at least one account when provided")
  else
    match input.bankAccounts.bind validateBankAccountsInput with
    | some e => some e
    | none =>
      if input.bankAccountIDsToRemove.any (fun l => l.isEmpty) then
        some (.validation
          "bank_account_ids_to_remove must contain at least one id when provided")
      else
        match input.bankAccountIDsToRemove with
        | none => none
        | some ids =>
          (ids.enum.findSome? (fun (idx, accountID) =>
            if !(isUUIDv7 (goTrimSpace accountID)) then
              some (DomainError.validation
                ("bank_account_ids_to_remove[" ++ toString idx ++
                 "] must be a UUIDv7"))
            else none))

/-- `Service.UpdateClinic`: validate the input, then run the
transaction; the second component is the transaction result, the first
the statement trace. -/
def Service.UpdateClinic (validEmail isUUIDv7 : String → Bool)
    (gen : Nat → String) (t : Nat) (db : Database) (clinicID : String)
    (input : UpdateClinicInput) : List Ev × Except DomainError Database :=
  match validateUpdateClinicInput validEmail isUUIDv7 input with
  | some e => ([], .error e)
  | none => Service.UpdateClinicTx gen t db clinicID input

/-- Transactional commit semantics: a failed `UpdateClinic` rolls every
change of the request back, leaving the pre-transaction state. -/
def Service.CommitUpdateClinic (validEmail isUUIDv7 : String → Bool)
    (gen : Nat → String) (t : Nat) (db : Database) (clinicID : String)
    (input : UpdateClinicInput) : Database :=
  match (Service.UpdateClinic validEmail isUUIDv7 gen t db clinicID input).2 with
  | .ok db' => db'
  | .error _ => db

/-- Whether the trace acquires the clinic row lock before every row
mutation of the request. -/
def lockPrecedesMutations (tr : List Ev) : Bool :=
  (tr.takeWhile (fun e => !(e == Ev.evLockClinic))).all (fun e => !(isMutationEv e))

/-- Whether the trace acquires the clinic row lock before every
bank-account removal of the request. -/
def lockPrecedesRemovals (tr : List Ev) : Bool :=
  (tr.takeWhile (fun e => !(e == Ev.evLockClinic))).all (fun e => !(isRemoveEv e))

theorem updateClinicTx_trace (gen : Nat → String) (t : Nat) (db : Database)
    (clinicID : String) (input : UpdateClinicInput) :
    (Service.UpdateClinicTx gen t db clinicID input).1 =
      (Service.UpdateClinicCore gen t db clinicID input).1 := by
  unfold Service.UpdateClinicTx
  rcases h : Service.UpdateClinicCore gen t db clinicID input with ⟨evs, r⟩
  cases r <;> simp

theorem updateClinic_ok_of_parts {validEmail isUUIDv7 : String → Bool}
    {gen : Nat → String} {t : Nat} {db : Database} {clinicID : String}
    {input : UpdateClinicInput} {db' : Database}
    (h : (Service.UpdateClinic validEmail isUUIDv7 gen t db clinicID input).2 =
      .ok db') :
    validateUpdateClinicInput validEmail isUUIDv7 input = none ∧
      (Service.UpdateClinicCore gen t db clinicID input).2 = .ok db' ∧
      ¬(Query.ListBankAccountsByClinicID db' clinicID).length = 0 := by
  unfold Service.UpdateClinic at h
  cases hval : validateUpdateClinicInput validEmail isUUIDv7 input with
  | some e => rw [hval] at h; exact absurd h (by simp)
  | none =>
    rw [hval] at h
    unfold Service.UpdateClinicTx at h
    rcases hcore : Service.UpdateClinicCore gen t db clinicID input with ⟨evs, r⟩
    rw [hcore] at h
    cases r with
    | error e => exact absurd h (by simp)
    | ok db2 =>
      simp only [ensureActiveBankAccount] at h
      by_cases hlen : (Query.ListBankAccountsByClinicID db2 clinicID).length = 0
      · rw [if_pos (by simpa using hlen)] at h
        exact absurd h (by simp)
      · rw [if_neg (by simpa using hlen)] at h
        have hdb : db2 = db' := by simpa using h
        subst hdb
        exact ⟨rfl, rfl, hlen⟩

/-- C1: the `UpdateClinic` transaction counts the clinic's remaining
non-deleted bank accounts after all insertions and removals of the
request; a zero count fails the transaction with `Validation`, any
failure rolls the whole request back, and hence every completed
`UpdateClinic` leaves the clinic with at least one non-deleted bank
account. -/
theorem updateClinic_retains_active_bank_account
    (validEmail isUUIDv7 : String → Bool) (gen : Nat → String) (t : Nat)
    (db : Database) (clinicID : String) (input : UpdateClinicInput) :
    (∀ db',
      (Service.UpdateClinic validEmail isUUIDv7 gen t db clinicID input).2 =
        .ok db' →
      0 < (Query.ListBankAccountsByClinicID db' clinicID).length) ∧
    (∀ db2,
      validateUpdateClinicInput validEmail isUUIDv7 input = none →
      (Service.UpdateClinicCore gen t db clinicID input).2 = .ok db2 →
      (Query.ListBankAccountsByClinicID db2 clinicID).length = 0 →
      (Service.UpdateClinic validEmail isUUIDv7 gen t db clinicID input).2 =
        .error (.validation "clinic must have at least one active bank account")) ∧
    (∀ e,
      (Service.UpdateClinic validEmail isUUIDv7 gen t db clinicID input).2 =
        .error e →
      Service.CommitUpdateClinic validEmail isUUIDv7 gen t db clinicID input =
        db) := by
  refine ⟨?_, ?_, ?_⟩
  · intro db' h
    have := (updateClinic_ok_of_parts h).2.2
    omega
  · intro db2 hval hcore hzero
    unfold Service.UpdateClinic
    rw [hval]
    unfold Service.UpdateClinicTx
    rcases hc : Service.UpdateClinicCore gen t db clinicID input with ⟨evs, r⟩
    rw [hc] at hcore
    cases r with
    | error e => exact absurd hcore (by simp)
    | ok db3 =>
      have : db3 = db2 := by simpa using hcore
      subst this
      simp [ensureActiveBankAccount, hzero]
  · intro e h
    unfold Service.CommitUpdateClinic
    rw [h]

theorem lockPrecedesRemovals_of_no_remove :
    ∀ {l : List Ev}, (∀ e ∈ l, isRemoveEv e = false) →
      lockPrecedesRemovals l = true := by
  intro l h
  unfold lockPrecedesRemovals
  rw [List.all_eq_true]
  intro e he
  have : e ∈ l := (List.takeWhile_sublist _).subset he
  simp [h e this]

theorem lockPrecedesRemovals_append_lock :
    ∀ (l1 rest : List Ev),
      (∀ e ∈ l1, (e == Ev.evLockClinic) = false ∧ isRemoveEv e = false) →
      lockPrecedesRemovals (l1 ++ Ev.evLockClinic :: rest) = true
  | [], rest, _ => by
    simp [lockPrecedesRemovals, List.takeWhile_cons]
  | a :: l1, rest, h => by
    have ha := h a (by simp)
    have ih := lockPrecedesRemovals_append_lock l1 rest
      (fun e he => h e (by simp [he]))
    unfold lockPrecedesRemovals at ih ⊢
    simpa [List.takeWhile_cons, ha.1, ha.2] using ih

theorem insertAccountsAux_events (gen : Nat → String) (clinicID : String) :
    ∀ (accs : List BankAccountInput) (i : Nat) (db : Database),
      ∀ e ∈ (insertAccountsAux gen clinicID i db accs).1,
        (e == Ev.evLockClinic) = false ∧ isRemoveEv e = false
  | [], i, db => by simp [insertAccountsAux]
  | a :: rest, i, db => by
    intro e he
    rw [insertAccountsAux] at he
    split at he
    · simp only [List.mem_singleton] at he
      subst he
      exact ⟨rfl, rfl⟩
    · simp only [List.mem_cons] at he
      rcases he with rfl | he
      · exact ⟨rfl, rfl⟩
      · exact insertAccountsAux_events gen clinicID rest (i + 1) _ e he

theorem updateClinicCore_step1_events (db : Database)
    (input : UpdateClinicInput) (clinic : Clinic) :
    ∀ e ∈ (if input.legalName.isSome || input.tradeName.isSome ||
        input.email.isSome || input.phone.isSome then
        ([Ev.evUpdatePerson],
         Query.UpdatePerson db clinic.personID (optionalString input.legalName)
           (optionalString input.tradeName) (optionalString input.email)
           (optionalString input.phone))
      else (([] : List Ev), db)).1,
      (e == Ev.evLockClinic) = false ∧ isRemoveEv e = false := by
  intro e he
  split at he
  · simp only [List.mem_singleton] at he
    subst he
    exact ⟨rfl, rfl⟩
  · simp at he

theorem removalPhase_trace (t : Nat) (clinicID : String) (db2 : Database)
    (removeIDs : Option (List String)) :
    (removalPhase t clinicID db2 removeIDs).1 = [] ∨
      ∃ rest, (removalPhase t clinicID db2 removeIDs).1 =
        Ev.evLockClinic :: rest := by
  unfold removalPhase
  cases removeIDs with
  | none => exact Or.inl rfl
  | some ids =>
    cases hlock : lockClinicForUpdate db2 clinicID with
    | error e => exact Or.inr ⟨[], rfl⟩
    | ok u => exact Or.inr ⟨(applyAccountRemovals t clinicID db2 ids).1, rfl⟩

/-- C5 (amended): in every `UpdateClinic` request that removes bank
accounts, the exclusive clinic row lock is acquired before any removal
is applied (person updates and account insertions of the same request
run before the lock). -/
theorem updateClinic_lock_precedes_removals
    (validEmail isUUIDv7 : String → Bool) (gen : Nat → String) (t : Nat)
    (db : Database) (clinicID : String) (input : UpdateClinicInput) :
    lockPrecedesRemovals
      ((Service.UpdateClinic validEmail isUUIDv7 gen t db clinicID input).1) =
      true := by
  unfold Service.UpdateClinic
  cases hval : validateUpdateClinicInput validEmail isUUIDv7 input with
  | some e => simp [lockPrecedesRemovals]
  | none =>
    simp only []
    rw [updateClinicTx_trace]
    unfold Service.UpdateClinicCore
    cases hq : Query.GetClinicByID db clinicID with
    | none => simp [lockPrecedesRemovals]
    | some clinic =>
      simp only []
      have hstep1 := updateClinicCore_step1_events db input clinic
      generalize hs1 :
        (if input.legalName.isSome || input.tradeName.isSome ||
            input.email.isSome || input.phone.isSome then
          ([Ev.evUpdatePerson],
           Query.UpdatePerson db clinic.personID (optionalString input.legalName)
             (optionalString input.tradeName) (optionalString input.email)
             (optionalString input.phone))
        else (([] : List Ev), db)) = step1
      rw [hs1] at hstep1
      have hstep2 :
          ∀ e ∈ (match input.bankAccounts with
            | none => (([] : List Ev), (Except.ok step1.2 : Except PgError Database))
            | some accounts =>
              insertAccountsAux gen clinicID 0 step1.2 accounts).1,
            (e == Ev.evLockClinic) = false ∧ isRemoveEv e = false := by
        cases input.bankAccounts with
        | none => simp
        | some accounts =>
          exact insertAccountsAux_events gen clinicID accounts 0 step1.2
      generalize hs2 :
        (match input.bankAccounts with
          | none => (([] : List Ev), (Except.ok step1.2 : Except PgError Database))
          | some accounts =>
            insertAccountsAux gen clinicID 0 step1.2 accounts) = step2
      rw [hs2] at hstep2
      have h12 : ∀ e ∈ step1.1 ++ step2.1,
          (e == Ev.evLockClinic) = false ∧ isRemoveEv e = false := by
        intro e he
        rcases List.mem_append.mp he with h | h
        · exact hstep1 e h
        · exact hstep2 e h
      have hphase := fun (db2 : Database) =>
        removalPhase_trace t clinicID db2 input.bankAccountIDsToRemove
      split
      · exact lockPrecedesRemovals_of_no_remove (fun e he => (h12 e he).2)
      · rename_i db2 heq
        rcases hphase db2 with h3 | ⟨rest, h3⟩
        · rw [h3]
          simpa using
            lockPrecedesRemovals_of_no_remove (fun e he => (h12 e he).2)
        · rw [h3]
          have := lockPrecedesRemovals_append_lock (step1.1 ++ step2.1) rest h12
          simpa using this

deriving instance DecidableEq for Except

/-- A validator that accepts every input, used to instantiate the
injected e-mail / UUID validators on concrete runs. -/
def acceptAll : String → Bool := fun _ => true

/-- A deterministic stand-in for the UUIDv7 generator. -/
def genFresh : Nat → String := fun i => "g" ++ toString i

/-- Concrete fixture: the company person owning the sample clinic. -/
def samplePerson : Person :=
  { id := "p1", personType := "COMPANY", taxIDType := "CNPJ"
    taxIDNumber := "11222333000181", legalName := "Acme"
    tradeName := none, email := none, phone := none, deletedAt := none }

/-- Concrete fixture: one clinic with one active bank account. -/
def sampleDB : Database :=
  { people := [samplePerson]
    clinics := [{ id := "c1", personID := "p1", deletedAt := none }]
    dentists := []
    clinicDentists := []
    bankAccounts := [{ id := "b1", clinicID := "c1", bankCode := "001"
                       branchNumber := "1234", accountNumber := "998877"
                       deletedAt := none }] }

/-- Concrete fixture: an update renaming the clinic, adding one account
and removing the pre-existing one. -/
def sampleUpdateBothInput : UpdateClinicInput :=
  { legalName := some "New Name", tradeName := none, email := none
    phone := none
    bankAccounts := some [{ bankCode := "260", branchNumber := "0001"
                            accountNumber := "123" }]
    bankAccountIDsToRemove := some ["b1"] }

/-- Concrete fixture: an update that only removes the clinic's single
account. -/
def sampleRemoveOnlyInput : UpdateClinicInput :=
  { legalName := none, tradeName := none, email := none, phone := none
    bankAccounts := none, bankAccountIDsToRemove := some ["b1"] }

/-- C5 (counterexample): on a request that updates the person, inserts
an account and removes one, `UpdateClinic` issues the person update and
the account insertion before acquiring the clinic row lock, so the lock
does not precede every row mutation of the request (it only precedes
the removals). -/
theorem updateClinic_lock_not_before_all_mutations :
    lockPrecedesMutations
      ((Service.UpdateClinic acceptAll acceptAll genFresh 5 sampleDB "c1"
        sampleUpdateBothInput).1) = false ∧
    (Service.UpdateClinic acceptAll acceptAll genFresh 5 sampleDB "c1"
        sampleUpdateBothInput).1 =
      [Ev.evUpdatePerson, Ev.evInsertAccount "g0", Ev.evLockClinic,
       Ev.evRemoveAccount "b1"] := by
  exact ⟨by decide, by decide⟩

/-- Concrete fixture: the committed state of `sampleUpdateBothInput`. -/
def sampleDbAfterBoth : Database :=
  { people := [{ samplePerson with legalName := "New Name" }]
    clinics := [{ id := "c1", personID := "p1", deletedAt := none }]
    dentists := []
    clinicDentists := []
    bankAccounts := [{ id := "b1", clinicID := "c1", bankCode := "001"
                       branchNumber := "1234", accountNumber := "998877"
                       deletedAt := some 5 },
                     { id := "g0", clinicID := "c1", bankCode := "260"
                       branchNumber := "0001", accountNumber := "123"
                       deletedAt := none }] }

/-- Concrete fixture: the pre-check state of `sampleRemoveOnlyInput`,
whose only account was just soft-deleted. -/
def sampleDbRemoved : Database :=
  { people := [samplePerson]
    clinics := [{ id := "c1", personID := "p1", deletedAt := none }]
    dentists := []
    clinicDentists := []
    bankAccounts := [{ id := "b1", clinicID := "c1", bankCode := "001"
                       branchNumber := "1234", accountNumber := "998877"
                       deletedAt := some 5 }] }

/-- Witness for C1: a request that swaps the only account for a new one
commits with one active account left; a request that removes the only
account fails with the `Validation` message and is rolled back. -/
theorem updateClinic_retains_active_bank_account_witness :
    0 < (Query.ListBankAccountsByClinicID sampleDbAfterBoth "c1").length ∧
    (Service.UpdateClinic acceptAll acceptAll genFresh 5 sampleDB "c1"
        sampleRemoveOnlyInput).2 =
      .error (.validation "clinic must have at least one active bank account") ∧
    Service.CommitUpdateClinic acceptAll acceptAll genFresh 5 sampleDB "c1"
      sampleRemoveOnlyInput = sampleDB :=
  ⟨(updateClinic_retains_active_bank_account acceptAll acceptAll genFresh 5
      sampleDB "c1" sampleUpdateBothInput).1 sampleDbAfterBoth (by decide),
   (updateClinic_retains_active_bank_account acceptAll acceptAll genFresh 5
      sampleDB "c1" sampleRemoveOnlyInput).2.1 sampleDbRemoved (by decide)
      (by decide) (by decide),
   (updateClinic_retains_active_bank_account acceptAll acceptAll genFresh 5
      sampleDB "c1" sampleRemoveOnlyInput).2.2
      (.validation "clinic must have at least one active bank account")
      (by decide)⟩

/-- `Service.UnlinkDentistFromClinic`: requires an active link
(`NotFound` otherwise), refuses to remove the dentist's last active
affiliation (`Conflict`), then ends the active row and reports
`NotFound` when zero rows were affected. -/
def Service.UnlinkDentistFromClinic (t : Nat) (db : Database)
    (clinicID dentistID : String) : Except DomainError Database :=
  match Query.GetActiveClinicDentist db clinicID dentistID with
  | none => .error (.notFound "clinic dentist active link not found")
  | some _ =>
    if Query.CountActiveClinicLinksByDentist db dentistID ≤ 1 then
      .error (.conflict "cannot unlink dentist from the last active clinic")
    else
      let step := Query.EndClinicDentist t db clinicID dentistID
      if step.1 == 0 then
        .error (.notFound "clinic dentist active link not found")
      else .ok step.2

theorem countP_activePair_le_one {l : List ClinicDentist}
    (h : l.Pairwise (fun a b =>
      ¬(a.clinicID = b.clinicID ∧ a.dentistID = b.dentistID ∧
        a.endedAt = none ∧ b.endedAt = none)))
    (clinicID dentistID : String) :
    l.countP (fun r => r.clinicID == clinicID && r.dentistID == dentistID &&
      r.endedAt.isNone) ≤ 1 := by
  induction l with
  | nil => simp
  | cons a l ih =>
    rcases List.pairwise_cons.mp h with ⟨ha, hl⟩
    by_cases hm : (a.clinicID == clinicID && a.dentistID == dentistID &&
        a.endedAt.isNone) = true
    · have hma : a.clinicID = clinicID ∧ a.dentistID = dentistID ∧
          a.endedAt = none := by
        simp only [Bool.and_eq_true, beq_iff_eq, Option.isNone_iff_eq_none]
          at hm
        exact ⟨hm.1.1, hm.1.2, hm.2⟩
      have hzero : l.countP (fun r => r.clinicID == clinicID &&
          r.dentistID == dentistID && r.endedAt.isNone) = 0 := by
        rw [List.countP_eq_zero]
        intro b hb hmb
        have hmbp : b.clinicID = clinicID ∧ b.dentistID = dentistID ∧
            b.endedAt = none := by
          simp only [Bool.and_eq_true, beq_iff_eq, Option.isNone_iff_eq_none]
            at hmb
          exact ⟨hmb.1.1, hmb.1.2, hmb.2⟩
        exact ha b hb ⟨hma.1.trans hmbp.1.symm, hma.2.1.trans hmbp.2.1.symm,
          hma.2.2, hmbp.2.2⟩
      simp only [List.countP_cons, hm, if_true, hzero]
      omega
    · have hm' : (a.clinicID == clinicID && a.dentistID == dentistID &&
          a.endedAt.isNone) = false := Bool.not_eq_true _ |>.mp hm
      simp only [List.countP_cons, hm', if_false]
      simpa using ih hl

theorem getActive_countP_pos {db : Database} {clinicID dentistID : String}
    {r : ClinicDentist}
    (h : Query.GetActiveClinicDentist db clinicID dentistID = some r) :
    0 < db.clinicDentists.countP (fun x => x.clinicID == clinicID &&
      x.dentistID == dentistID && x.endedAt.isNone) := by
  unfold Query.GetActiveClinicDentist at h
  rw [List.countP_eq_length_filter]
  have hne : db.clinicDentists.filter (fun x => x.clinicID == clinicID &&
      x.dentistID == dentistID && x.endedAt.isNone) ≠ [] := by
    intro hnil
    rw [hnil] at h
    exact absurd h (by simp)
  exact List.length_pos.mpr hne

/-- C2: unlinking requires an active link (`NotFound` otherwise); with
an active link but only one active affiliation system-wide it fails
with `Conflict`; with two or more it ends exactly the one active row of
the pair, and a zero-affected update would be `NotFound`. -/
theorem unlinkDentistFromClinic_rules (t : Nat) (db : Database)
    (clinicID dentistID : String) :
    (Query.GetActiveClinicDentist db clinicID dentistID = none →
      Service.UnlinkDentistFromClinic t db clinicID dentistID =
        .error (.notFound "clinic dentist active link not found")) ∧
    (∀ r, Query.GetActiveClinicDentist db clinicID dentistID = some r →
      Query.CountActiveClinicLinksByDentist db dentistID = 1 →
      Service.UnlinkDentistFromClinic t db clinicID dentistID =
        .error (.conflict "cannot unlink dentist from the last active clinic")) ∧
    (∀ r, pairActiveUnique db →
      Query.GetActiveClinicDentist db clinicID dentistID = some r →
      2 ≤ Query.CountActiveClinicLinksByDentist db dentistID →
      db.clinicDentists.countP (fun x => x.clinicID == clinicID &&
        x.dentistID == dentistID && x.endedAt.isNone) = 1 ∧
      Service.UnlinkDentistFromClinic t db clinicID dentistID =
        .ok { db with clinicDentists :=
          db.clinicDentists.map (fun x =>
            if x.clinicID == clinicID && x.dentistID == dentistID &&
                x.endedAt.isNone then { x with endedAt := some t } else x) }) := by
  refine ⟨?_, ?_, ?_⟩
  · intro h
    unfold Service.UnlinkDentistFromClinic
    rw [h]
  · intro r h hcount
    unfold Service.UnlinkDentistFromClinic
    rw [h]
    simp [hcount]
  · intro r hinv h hcount
    have hle := countP_activePair_le_one hinv clinicID dentistID
    have hpos := getActive_countP_pos h
    have hone : db.clinicDentists.countP (fun x => x.clinicID == clinicID &&
        x.dentistID == dentistID && x.endedAt.isNone) = 1 := by omega
    refine ⟨hone, ?_⟩
    unfold Service.UnlinkDentistFromClinic
    rw [h]
    rw [if_neg (by omega)]
    have hstep : (Query.EndClinicDentist t db clinicID dentistID).1 = 1 := by
      unfold Query.EndClinicDentist
      exact hone
    rw [if_neg (by simp [hstep])]
    unfold Query.EndClinicDentist
    rfl

/-- Concrete fixture: a dentist with a single active affiliation. -/
def sampleDbOneLink : Database :=
  { people := [], clinics := [], dentists := []
    clinicDentists := [{ clinicID := "c1", dentistID := "d1"
                         isAdmin := false, isLegalRepresentative := false
                         startedAt := 1, endedAt := none }]
    bankAccounts := [] }

/-- Concrete fixture: a dentist with two active affiliations. -/
def sampleDbTwoLinks : Database :=
  { people := [], clinics := [], dentists := []
    clinicDentists := [{ clinicID := "c1", dentistID := "d1"
                         isAdmin := false, isLegalRepresentative := false
                         startedAt := 1, endedAt := none },
                       { clinicID := "c2", dentistID := "d1"
                         isAdmin := true, isLegalRepresentative := false
                         startedAt := 2, endedAt := none }]
    bankAccounts := [] }

/-- Witness for C2: no active link is `NotFound`; one active
affiliation is `Conflict`; with two, exactly the pair's active row is
ended. -/
theorem unlinkDentistFromClinic_rules_witness :
    Service.UnlinkDentistFromClinic 9 sampleDbOneLink "c9" "d1" =
      .error (.notFound "clinic dentist active link not found") ∧
    Service.UnlinkDentistFromClinic 9 sampleDbOneLink "c1" "d1" =
      .error (.conflict "cannot unlink dentist from the last active clinic") ∧
    sampleDbTwoLinks.clinicDentists.countP (fun x => x.clinicID == "c1" &&
      x.dentistID == "d1" && x.endedAt.isNone) = 1 ∧
    Service.UnlinkDentistFromClinic 9 sampleDbTwoLinks "c1" "d1" =
      .ok { sampleDbTwoLinks with clinicDentists :=
        sampleDbTwoLinks.clinicDentists.map (fun x =>
          if x.clinicID == "c1" && x.dentistID == "d1" &&
              x.endedAt.isNone then { x with endedAt := some 9 } else x) } := by
  refine ⟨(unlinkDentistFromClinic_rules 9 sampleDbOneLink "c9" "d1").1
      (by decide),
    (unlinkDentistFromClinic_rules 9 sampleDbOneLink "c1" "d1").2.1
      { clinicID := "c1", dentistID := "d1", isAdmin := false
        isLegalRepresentative := false, startedAt := 1, endedAt := none }
      (by decide) (by decide), ?_, ?_⟩
  · exact ((unlinkDentistFromClinic_rules 9 sampleDbTwoLinks "c1" "d1").2.2
      { clinicID := "c1", dentistID := "d1", isAdmin := false
        isLegalRepresentative := false, startedAt := 1, endedAt := none }
      (by decide) (by decide) (by decide)).1
  · exact ((unlinkDentistFromClinic_rules 9 sampleDbTwoLinks "c1" "d1").2.2
      { clinicID := "c1", dentistID := "d1", isAdmin := false
        isLegalRepresentative := false, startedAt := 1, endedAt := none }
      (by decide) (by decide) (by decide)).2

/-- C9: normalizing an already-normalized company tax-id returns the
same string, and therefore any check-digit validator (the injected
`ValidateCNPJ`) gives the same verdict on the normalized string as on
the once-more-normalized string. -/
theorem normalizeCNPJ_idempotent_validity_preserved
    (validateCNPJ : String → Bool) (raw : String) :
    NormalizeCNPJ (NormalizeCNPJ raw) = NormalizeCNPJ raw ∧
    validateCNPJ (NormalizeCNPJ (NormalizeCNPJ raw)) =
      validateCNPJ (NormalizeCNPJ raw) := by
  refine ⟨NormalizeCNPJ_idem raw, ?_⟩
  rw [NormalizeCNPJ_idem raw]

/-- The affiliation step of `CreateOrAttachDentist` (service lines
469–515): look up the active link; if none, insert a fresh active row
started now; on an active-uniqueness violation (`insertRaced`, a
concurrent attach won) re-read the now-active row (`reread`) and apply
a role update to it instead of failing; `created` is reported only for
the race-free insert. -/
def Service.ResolveClinicDentistRelation (now : Nat)
    (clinicID dentistID : String) (isAdmin isLegalRep : Bool)
    (existing : Option ClinicDentist) (insertRaced : Bool)
    (reread : Option ClinicDentist) :
    Except DomainError (ClinicDentist × Bool) :=
  match existing with
  | some r =>
    .ok ({ r with isAdmin := isAdmin, isLegalRepresentative := isLegalRep },
      false)
  | none =>
    if insertRaced then
      match reread with
      | none => .error (.internal "active clinic dentist link not found")
      | some r =>
        .ok ({ r with isAdmin := isAdmin, isLegalRepresentative := isLegalRep },
          false)
    else
      .ok ({ clinicID := clinicID, dentistID := dentistID, isAdmin := isAdmin
             isLegalRepresentative := isLegalRep, startedAt := now
             endedAt := none }, true)

/-- C3: with no pre-existing active affiliation a fresh active row
started now is inserted and `created = true`; if that insert loses the
active-uniqueness race, the now-active row is re-read and role-updated
with no error and `created = false`; `created` is true only on the
race-free insert. -/
theorem createOrAttachDentist_race_created_flag (now : Nat)
    (clinicID dentistID : String) (isAdmin isLegalRep : Bool)
    (existing : Option ClinicDentist) (insertRaced : Bool)
    (reread : Option ClinicDentist) :
    (∀ rel created,
      Service.ResolveClinicDentistRelation now clinicID dentistID isAdmin
        isLegalRep existing insertRaced reread = .ok (rel, created) →
      (created = true ↔ existing = none ∧ insertRaced = false)) ∧
    (existing = none → insertRaced = false →
      Service.ResolveClinicDentistRelation now clinicID dentistID isAdmin
        isLegalRep existing insertRaced reread =
      .ok ({ clinicID := clinicID, dentistID := dentistID, isAdmin := isAdmin
             isLegalRepresentative := isLegalRep, startedAt := now
             endedAt := none }, true)) ∧
    (∀ r, existing = none → insertRaced = true → reread = some r →
      Service.ResolveClinicDentistRelation now clinicID dentistID isAdmin
        isLegalRep existing insertRaced reread =
      .ok ({ r with isAdmin := isAdmin, isLegalRepresentative := isLegalRep },
        false)) := by
  refine ⟨?_, ?_, ?_⟩
  · intro rel created h
    cases existing with
    | some r =>
      simp only [Service.ResolveClinicDentistRelation, Except.ok.injEq,
        Prod.mk.injEq] at h
      simp [← h.2]
    | none =>
      simp only [Service.ResolveClinicDentistRelation] at h
      by_cases hr : insertRaced = true
      · rw [if_pos hr] at h
        cases reread with
        | none => exact absurd h (by simp)
        | some r =>
          simp only [Except.ok.injEq, Prod.mk.injEq] at h
          simp [← h.2, hr]
      · rw [if_neg hr] at h
        simp only [Except.ok.injEq, Prod.mk.injEq] at h
        have hf : insertRaced = false := by simpa using hr
        simp [← h.2, hf]
  · intro he hr
    subst he
    simp [Service.ResolveClinicDentistRelation, hr]
  · intro r he hr hre
    subst he
    subst hre
    simp [Service.ResolveClinicDentistRelation, hr]

/-- Witness for C3: concrete race-free insert, lost race, and
pre-existing affiliation runs. -/
theorem createOrAttachDentist_race_created_flag_witness :
    Service.ResolveClinicDentistRelation 7 "c1" "d1" true false none false
      none =
      .ok ({ clinicID := "c1", dentistID := "d1", isAdmin := true
             isLegalRepresentative := false, startedAt := 7
             endedAt := none }, true) ∧
    Service.ResolveClinicDentistRelation 7 "c1" "d1" true false none true
      (some { clinicID := "c1", dentistID := "d1", isAdmin := false
              isLegalRepresentative := true, startedAt := 3
              endedAt := none }) =
      .ok ({ clinicID := "c1", dentistID := "d1", isAdmin := true
             isLegalRepresentative := false, startedAt := 3
             endedAt := none }, false) ∧
    (true = true ↔ (none : Option ClinicDentist) = none ∧ false = false) :=
  ⟨(createOrAttachDentist_race_created_flag 7 "c1" "d1" true false none false
      none).2.1 rfl rfl,
   (createOrAttachDentist_race_created_flag 7 "c1" "d1" true false none true
      (some { clinicID := "c1", dentistID := "d1", isAdmin := false
              isLegalRepresentative := true, startedAt := 3
              endedAt := none })).2.2
      { clinicID := "c1", dentistID := "d1", isAdmin := false
        isLegalRepresentative := true, startedAt := 3, endedAt := none }
      rfl rfl rfl,
   (createOrAttachDentist_race_created_flag 7 "c1" "d1" true false none false
      none).1
      { clinicID := "c1", dentistID := "d1", isAdmin := true
        isLegalRepresentative := false, startedAt := 7, endedAt := none }
      true (by decide)⟩

/-- Input of `CreateClinic`. -/
structure CreateClinicInput where
  taxIDNumber : String
  legalName : String
  tradeName : Option String
  email : Option String
  phone : Option String
  bankAccounts : List BankAccountInput
deriving DecidableEq, Repr

/-- `Service.CreateClinic`: validate, then in one transaction insert
the company person (`gen 0`), the clinic (`gen 1`) and the bank
accounts (`gen 2`, `gen 3`, …); every storage error is classified with
`mapDatabaseError` — there is no lookup by tax-id and no re-read on a
unique violation in this flow. -/
def Service.CreateClinic (validCNPJ validEmail : String → Bool)
    (gen : Nat → String) (db : Database) (input : CreateClinicInput) :
    Except DomainError Database :=
  let taxID := NormalizeCNPJ input.taxIDNumber
  if !(validCNPJ taxID) then .error (.validation "invalid CNPJ")
  else if goTrimSpace input.legalName == "" then
    .error (.validation "legal_name is required")
  else if input.email.any (fun v => goTrimSpace v != "" && !(validEmail v)) then
    .error (.validation "invalid email")
  else if input.bankAccounts.isEmpty then
    .error (.validation "bank_accounts must contain at least one account")
  else
    match validateBankAccountsInput input.bankAccounts with
    | some e => .error e
    | none =>
      match Query.CreatePerson db
          { id := gen 0, personType := "COMPANY", taxIDType := "CNPJ"
            taxIDNumber := taxID, legalName := goTrimSpace input.legalName
            tradeName := optionalString input.tradeName
            email := optionalString input.email
            phone := optionalString input.phone, deletedAt := none } with
      | .error e => .error (mapDatabaseError e)
      | .ok db1 =>
        match Query.CreateClinic db1
            { id := gen 1, personID := gen 0, deletedAt := none } with
        | .error e => .error (mapDatabaseError e)
        | .ok db2 =>
          match (insertAccountsAux gen (gen 1) 2 db2 input.bankAccounts).2 with
          | .error e => .error (mapDatabaseError e)
          | .ok db3 => .ok db3

/-- The person-resolution step of `CreateOrAttachDentist` (service
lines 399–430): look the person up by normalized tax-id; if absent,
insert a fresh INDIVIDUAL person; if that insert loses the
tax-id-uniqueness race (`insertRaced`), re-read by tax-id (`reread`)
and proceed as found instead of failing. -/
def Service.ResolveDentistPerson (gen : Nat → String)
    (taxID legalName : String) (email phone : Option String)
    (lookup : Option Person) (insertRaced : Bool) (reread : Option Person) :
    Except DomainError Person :=
  match lookup with
  | some p => .ok p
  | none =>
    if insertRaced then
      match reread with
      | none => .error (.internal "person not found after unique violation")
      | some p => .ok p
    else
      .ok { id := gen 0, personType := "INDIVIDUAL", taxIDType := "CPF"
            taxIDNumber := taxID, legalName := goTrimSpace legalName
            tradeName := none, email := optionalString email
            phone := optionalString phone, deletedAt := none }

/-- Concrete fixture: a database already holding a live person with the
normalized tax-id `11222333000181` (as left behind by a concurrent
request that inserted first). -/
def sampleDbDupePerson : Database :=
  { people := [{ id := "p0", personType := "COMPANY", taxIDType := "CNPJ"
                 taxIDNumber := "11222333000181", legalName := "First"
                 tradeName := none, email := none, phone := none
                 deletedAt := none }]
    clinics := [], dentists := [], clinicDentists := [], bankAccounts := [] }

/-- Concrete fixture: a well-formed create-clinic request for the same
tax-id. -/
def sampleCreateClinicInput : CreateClinicInput :=
  { taxIDNumber := "11.222.333/0001-81", legalName := "Acme Dental"
    tradeName := none, email := none, phone := none
    bankAccounts := [{ bankCode := "001", branchNumber := "1234"
                       accountNumber := "998877" }] }

/-- C6 (counterexample): in the clinic-creation flow, a person insert
that hits the tax-id uniqueness violation (a concurrent request
inserted first) surfaces `Conflict` to the caller — there is no
re-read-and-proceed in `CreateClinic`. -/
theorem createClinic_surfaces_conflict_on_person_race :
    Query.CreatePerson sampleDbDupePerson
      { id := genFresh 0, personType := "COMPANY", taxIDType := "CNPJ"
        taxIDNumber := NormalizeCNPJ sampleCreateClinicInput.taxIDNumber
        legalName := goTrimSpace sampleCreateClinicInput.legalName
        tradeName := none, email := none, phone := none
        deletedAt := none } = .error .uniqueViolation ∧
    Service.CreateClinic acceptAll acceptAll genFresh sampleDbDupePerson
      sampleCreateClinicInput = .error (.conflict "resource already exists") := by
  exact ⟨by decide, by decide⟩

/-- C6 (amended): in the dentist flow the lost person-insert race is
resolved by re-reading by tax-id and proceeding as found, with no error
surfaced; in the clinic-creation flow a uniqueness violation on the
person insert is classified `Conflict` and returned to the caller. -/
theorem person_insert_race_handling (gen : Nat → String)
    (taxID legalName : String) (email phone : Option String)
    (validCNPJ validEmail : String → Bool) (db : Database)
    (input : CreateClinicInput) :
    (∀ p, Service.ResolveDentistPerson gen taxID legalName email phone none
      true (some p) = .ok p) ∧
    (validCNPJ (NormalizeCNPJ input.taxIDNumber) = true →
      (goTrimSpace input.legalName == "") = false →
      input.email.any (fun v => goTrimSpace v != "" && !(validEmail v)) =
        false →
      input.bankAccounts.isEmpty = false →
      validateBankAccountsInput input.bankAccounts = none →
      Query.CreatePerson db
        { id := gen 0, personType := "COMPANY", taxIDType := "CNPJ"
          taxIDNumber := NormalizeCNPJ input.taxIDNumber
          legalName := goTrimSpace input.legalName
          tradeName := optionalString input.tradeName
          email := optionalString input.email
          phone := optionalString input.phone, deletedAt := none } =
        .error .uniqueViolation →
      Service.CreateClinic validCNPJ validEmail gen db input =
        .error (.conflict "resource already exists")) := by
  refine ⟨fun p => rfl, ?_⟩
  intro hcnpj hname hemail haccs hval hins
  unfold Service.CreateClinic
  simp only [hcnpj, Bool.not_true, Bool.false_eq_true, if_false, hname,
    hemail, haccs, hval, hins]
  rfl

/-- Witness for the amended C6: the dentist flow proceeds with the
re-read person; the clinic flow returns `Conflict` on the duplicate
tax-id. -/
theorem person_insert_race_handling_witness :
    Service.ResolveDentistPerson genFresh "12345678909" "Ana" none none none
      true (some { id := "p0", personType := "INDIVIDUAL", taxIDType := "CPF"
                   taxIDNumber := "12345678909", legalName := "Ana"
                   tradeName := none, email := none, phone := none
                   deletedAt := none }) =
      .ok { id := "p0", personType := "INDIVIDUAL", taxIDType := "CPF"
            taxIDNumber := "12345678909", legalName := "Ana"
            tradeName := none, email := none, phone := none
            deletedAt := none } ∧
    Service.CreateClinic acceptAll acceptAll genFresh sampleDbDupePerson
      sampleCreateClinicInput = .error (.conflict "resource already exists") :=
  ⟨(person_insert_race_handling genFresh "12345678909" "Ana" none none
      acceptAll acceptAll sampleDbDupePerson sampleCreateClinicInput).1
      { id := "p0", personType := "INDIVIDUAL", taxIDType := "CPF"
        taxIDNumber := "12345678909", legalName := "Ana", tradeName := none
        email := none, phone := none, deletedAt := none },
   (person_insert_race_handling genFresh "12345678909" "Ana" none none
      acceptAll acceptAll sampleDbDupePerson sampleCreateClinicInput).2
      (by decide) (by decide) (by decide) (by decide) (by decide) (by decide)⟩

/-- Lexicographic byte order on character lists: the order of the `uuid`
column type underlying `ORDER BY c.id` and `c.id > after_id`. -/
def charListLt : List Char → List Char → Bool
  | [], [] => false
  | [], _ :: _ => true
  | _ :: _, [] => false
  | x :: xs, y :: ys =>
    x.toNat < y.toNat || (x.toNat == y.toNat && charListLt xs ys)

/-- Strict identifier order. -/
def strLtB (a b : String) : Bool := charListLt a.data b.data

theorem charListLt_asymm :
    ∀ {a b : List Char}, charListLt a b = true → charListLt b a = false
  | [], [], h => by simp [charListLt] at h
  | [], _ :: _, _ => by simp [charListLt]
  | _ :: _, [], h => by simp [charListLt] at h
  | x :: xs, y :: ys, h => by
    simp only [charListLt, Bool.or_eq_true, Bool.and_eq_true, decide_eq_true_eq,
      beq_iff_eq] at h
    simp only [charListLt, Bool.or_eq_false_iff, Bool.and_eq_false_iff,
      decide_eq_false_iff_not, beq_eq_false_iff_ne, ne_eq]
    rcases h with h | ⟨heq, hlt⟩
    · exact ⟨by omega, Or.inl (by omega)⟩
    · exact ⟨by omega, Or.inr (charListLt_asymm hlt)⟩

theorem charListLt_connex :
    ∀ {c a b : List Char}, charListLt c a = true →
      charListLt c b = true ∨ charListLt b a = true
  | [], a, b, h => by
    cases a with
    | nil => simp [charListLt] at h
    | cons x xs =>
      cases b with
      | nil => exact Or.inr (by simp [charListLt])
      | cons y ys => exact Or.inl (by simp [charListLt])
  | _ :: _, [], b, h => by simp [charListLt] at h
  | z :: zs, x :: xs, b, h => by
    cases b with
    | nil => exact Or.inr (by simp [charListLt])
    | cons y ys =>
      simp only [charListLt, Bool.or_eq_true, Bool.and_eq_true,
        decide_eq_true_eq, beq_iff_eq] at h ⊢
      by_cases h1 : z.toNat < y.toNat
      · exact Or.inl (Or.inl h1)
      · rcases h with hlt | ⟨heq, htail⟩
        · exact Or.inr (Or.inl (by omega))
        · by_cases h2 : y.toNat < x.toNat
          · exact Or.inr (Or.inl h2)
          · have hzy : z.toNat = y.toNat := by omega
            have hyx : y.toNat = x.toNat := by omega
            rcases @charListLt_connex zs xs ys htail with ht | ht
            · exact Or.inl (Or.inr ⟨hzy, ht⟩)
            · exact Or.inr (Or.inr ⟨hyx, ht⟩)

/-- Ascending identifier order of `ORDER BY c.id`. -/
def clinicIdLE (a b : Clinic) : Prop := strLtB b.id a.id = false

instance : DecidableRel clinicIdLE :=
  fun a b => inferInstanceAs (Decidable (strLtB b.id a.id = false))

instance : IsTotal Clinic clinicIdLE := by
  refine ⟨fun a b => ?_⟩
  by_cases h : strLtB b.id a.id = true
  · exact Or.inr (charListLt_asymm h)
  · exact Or.inl (Bool.not_eq_true _ |>.mp h)

instance : IsTrans Clinic clinicIdLE := by
  refine ⟨fun a b c h1 h2 => ?_⟩
  by_cases h : strLtB c.id a.id = true
  · rcases @charListLt_connex c.id.data a.id.data b.id.data h with ht | ht
    · exact absurd ht (by simp [strLtB] at h2 ⊢; exact h2)
    · exact absurd ht (by simp [strLtB] at h1 ⊢; exact h1)
  · exact Bool.not_eq_true _ |>.mp h

/-- The join/soft-delete condition of `ListClinicDetailsCursor`: the
clinic and its joined person are both non-deleted. -/
def clinicJoinActive (db : Database) (c : Clinic) : Bool :=
  c.deletedAt.isNone &&
    db.people.any (fun p => p.id == c.personID && p.deletedAt.isNone)

/-- The cursor condition `after_id IS NULL OR c.id > after_id`. -/
def cursorFilter (afterID : Option String) (c : Clinic) : Bool :=
  match afterID with
  | none => true
  | some a => strLtB a c.id

/-- Query `ListClinicDetailsCursor` without its LIMIT: all live clinic
rows past the cursor, ordered ascending by identifier. -/
def Query.ListClinicDetailsCursorRows (db : Database)
    (afterID : Option String) : List Clinic :=
  List.insertionSort clinicIdLE
    (db.clinics.filter (fun c => clinicJoinActive db c && cursorFilter afterID c))

/-- Query `ListClinicDetailsCursor`: ordered live rows past the cursor,
limited to `page_limit`. -/
def Query.ListClinicDetailsCursor (db : Database) (afterID : Option String)
    (pageLimit : Nat) : List Clinic :=
  (Query.ListClinicDetailsCursorRows db afterID).take pageLimit

/-- `Service.ListClinicsWithCursor`: normalize the limit, validate the
cursor, over-fetch `pageLimit + 1` rows, truncate to `pageLimit` when
the extra row came back and emit the last returned identifier as the
next cursor. -/
def Service.ListClinicsWithCursor (isUUIDv7 : String → Bool) (db : Database)
    (limit : Int) (cursor : Option String) :
    Except DomainError (List Clinic × Option String) :=
  let pageLimit := normalizeCursorLimit limit
  let cursorCheck : Except DomainError Unit :=
    match cursor with
    | none => .ok ()
    | some c =>
      if !(isUUIDv7 c) then .error (.validation "invalid cursor") else .ok ()
  match cursorCheck with
  | .error e => .error e
  | .ok _ =>
    let rows := Query.ListClinicDetailsCursor db cursor (pageLimit + 1)
    if pageLimit < rows.length then
      let rows2 := rows.take pageLimit
      .ok (rows2,
        if rows2.isEmpty then none
        else Option.map (fun r => r.id) rows2.getLast?)
    else .ok (rows, none)

theorem normalizeCursorLimit_of_range {limit : Int} (hlo : 1 ≤ limit)
    (hhi : limit ≤ 100) : normalizeCursorLimit limit = limit.toNat := by
  unfold normalizeCursorLimit
  rw [if_neg (by omega), if_neg (by omega)]

/-- C4: with an in-range limit and a well-formed cursor, the listing
returns the first `limit` live clinics past the cursor in ascending
identifier order; the next cursor is present exactly when more rows
exist and then equals the identifier of the last returned row. -/
theorem listClinicsWithCursor_pagination (isUUIDv7 : String → Bool)
    (db : Database) (limit : Int) (cursor : Option String)
    (hlo : 1 ≤ limit) (hhi : limit ≤ 100)
    (hcur : ∀ c, cursor = some c → isUUIDv7 c = true) :
    Service.ListClinicsWithCursor isUUIDv7 db limit cursor =
      .ok ((Query.ListClinicDetailsCursorRows db cursor).take limit.toNat,
        if limit.toNat < (Query.ListClinicDetailsCursorRows db cursor).length
        then Option.map (fun r => r.id)
          (((Query.ListClinicDetailsCursorRows db cursor).take
            limit.toNat).getLast?)
        else none) ∧
    List.Sorted clinicIdLE (Query.ListClinicDetailsCursorRows db cursor) ∧
    (∀ r ∈ Query.ListClinicDetailsCursorRows db cursor,
      r.deletedAt = none ∧ ∀ c, cursor = some c → strLtB c r.id = true) := by
  have hL : 1 ≤ limit.toNat := by omega
  refine ⟨?_, ?_, ?_⟩
  · unfold Service.ListClinicsWithCursor
    have hchk : (match cursor with
        | none => (Except.ok () : Except DomainError Unit)
        | some c =>
          if !(isUUIDv7 c) then .error (.validation "invalid cursor")
          else .ok ()) = .ok () := by
      cases cursor with
      | none => rfl
      | some c => simp [hcur c rfl]
    rw [hchk]
    simp only [Query.ListClinicDetailsCursor,
      normalizeCursorLimit_of_range hlo hhi]
    set L := limit.toNat with hLdef
    set full := Query.ListClinicDetailsCursorRows db cursor with hfull
    have hlen : (full.take (L + 1)).length = min (L + 1) full.length :=
      List.length_take _ _
    by_cases h : L < full.length
    · have hrows : L < (full.take (L + 1)).length := by
        rw [hlen]; omega
      rw [if_pos hrows]
      have htake : (full.take (L + 1)).take L = full.take L := by
        rw [List.take_take]
        congr 1
        omega
      have hne : (full.take L).isEmpty = false := by
        rw [List.isEmpty_eq_false_iff_exists_mem]
        have : (full.take L).length = L := by
          rw [List.length_take]
          omega
        have hlpos : 0 < (full.take L).length := by omega
        rcases List.exists_mem_of_length_pos hlpos with ⟨a, ha⟩
        exact ⟨a, ha⟩
      rw [htake, if_neg (by simp [hne]), if_pos h]
    · rw [if_neg (by rw [hlen]; omega)]
      have hfull1 : full.take (L + 1) = full := List.take_of_length_le (by omega)
      have hfull2 : full.take L = full := List.take_of_length_le (by omega)
      rw [hfull1, hfull2, if_neg (by omega)]
  · exact List.sorted_insertionSort clinicIdLE _
  · intro r hr
    have hrm : r ∈ db.clinics.filter (fun c => clinicJoinActive db c &&
        cursorFilter cursor c) :=
      (List.perm_insertionSort clinicIdLE _).subset hr
    have hcond := List.of_mem_filter hrm
    rw [Bool.and_eq_true] at hcond
    constructor
    · have := hcond.1
      unfold clinicJoinActive at this
      rw [Bool.and_eq_true] at this
      simpa using this.1
    · intro c hc
      have := hcond.2
      rw [hc] at this
      unfold cursorFilter at this
      simpa using this


/-- Concrete fixture: 25 live clinics with identifiers "a" … "y". -/
def sampleDb25 : Database :=
  { people := [samplePerson]
    clinics := [{ id := "a", personID := "p1", deletedAt := none },
   { id := "b", personID := "p1", deletedAt := none },
   { id := "c", personID := "p1", deletedAt := none },
   { id := "d", personID := "p1", deletedAt := none },
   { id := "e", personID := "p1", deletedAt := none },
   { id := "f", personID := "p1", deletedAt := none },
   { id := "g", personID := "p1", deletedAt := none },
   { id := "h", personID := "p1", deletedAt := none },
   { id := "i", personID := "p1", deletedAt := none },
   { id := "j", personID := "p1", deletedAt := none },
   { id := "k", personID := "p1", deletedAt := none },
   { id := "l", personID := "p1", deletedAt := none },
   { id := "m", personID := "p1", deletedAt := none },
   { id := "n", personID := "p1", deletedAt := none },
   { id := "o", personID := "p1", deletedAt := none },
   { id := "p", personID := "p1", deletedAt := none },
   { id := "q", personID := "p1", deletedAt := none },
   { id := "r", personID := "p1", deletedAt := none },
   { id := "s", personID := "p1", deletedAt := none },
   { id := "t", personID := "p1", deletedAt := none },
   { id := "u", personID := "p1", deletedAt := none },
   { id := "v", personID := "p1", deletedAt := none },
   { id := "w", personID := "p1", deletedAt := none },
   { id := "x", personID := "p1", deletedAt := none },
   { id := "y", personID := "p1", deletedAt := none }]
    dentists := [], clinicDentists := [], bankAccounts := [] }

/-- Witness for C4: paging 25 clinics with limit 20 yields the first 20
identifiers and next cursor "t"; the follow-up call from "t" yields the
remaining 5 with no cursor. -/
theorem listClinicsWithCursor_pagination_witness :
    Service.ListClinicsWithCursor acceptAll sampleDb25 20 none =
      .ok ((Query.ListClinicDetailsCursorRows sampleDb25 none).take
          (20 : Int).toNat,
        if (20 : Int).toNat <
            (Query.ListClinicDetailsCursorRows sampleDb25 none).length
        then Option.map (fun r => r.id)
          (((Query.ListClinicDetailsCursorRows sampleDb25 none).take
            (20 : Int).toNat).getLast?)
        else none) ∧
    Service.ListClinicsWithCursor acceptAll sampleDb25 20 (some "t") =
      .ok ((Query.ListClinicDetailsCursorRows sampleDb25 (some "t")).take
          (20 : Int).toNat,
        if (20 : Int).toNat <
            (Query.ListClinicDetailsCursorRows sampleDb25 (some "t")).length
        then Option.map (fun r => r.id)
          (((Query.ListClinicDetailsCursorRows sampleDb25 (some "t")).take
            (20 : Int).toNat).getLast?)
        else none) ∧
    ((Query.ListClinicDetailsCursorRows sampleDb25 none).take
      (20 : Int).toNat).length = 20 ∧
    Option.map (fun r => r.id)
      (((Query.ListClinicDetailsCursorRows sampleDb25 none).take
        (20 : Int).toNat).getLast?) = some "t" ∧
    (20 : Int).toNat <
      (Query.ListClinicDetailsCursorRows sampleDb25 none).length ∧
    (Query.ListClinicDetailsCursorRows sampleDb25 (some "t")).length = 5 :=
  ⟨((listClinicsWithCursor_pagination acceptAll sampleDb25 20 none
      (by decide) (by decide) (fun c hc => by cases hc))).1,
   ((listClinicsWithCursor_pagination acceptAll sampleDb25 20 (some "t")
      (by decide) (by decide) (fun c hc => by cases hc; rfl))).1,
   by decide, by decide, by decide, by decide⟩

/-- Decimal digit accumulator of `strconv.Atoi` (overflow is not
modelled; Go would reject values outside int64, which this service
rejects anyway as out of the [1, 100] window). -/
def digitsValAux : Nat → List Char → Option Nat
  | acc, [] => some acc
  | acc, c :: rest =>
    if isDigitChar c then digitsValAux (acc * 10 + (c.toNat - 48)) rest
    else none

/-- Go `strconv.Atoi`: optional sign followed by at least one decimal
digit. -/
def goAtoi (s : String) : Option Int :=
  match s.data with
  | [] => none
  | '+' :: rest =>
    if rest.isEmpty then none else (digitsValAux 0 rest).map Int.ofNat
  | '-' :: rest =>
    if rest.isEmpty then none
    else (digitsValAux 0 rest).map (fun n => -(Int.ofNat n))
  | l => (digitsValAux 0 l).map Int.ofNat

/-- `parseCursorPagination` of the HTTP layer: a blank `limit` defaults
to 20; a non-integer or out-of-[1,100] `limit` fails; a blank cursor is
"first page"; a malformed cursor fails (`isUUIDv7` stands for the
`uuid.Parse` + version-7 check). -/
def parseCursorPagination (isUUIDv7 : String → Bool)
    (rawLimit rawCursor : String) : Except String (Int × Option String) :=
  let limitStep : Except String Int :=
    if goTrimSpace rawLimit == "" then .ok 20
    else
      match goAtoi (goTrimSpace rawLimit) with
      | none =>
        .error "invalid parameter limit: must be an integer between 1 and 100"
      | some n =>
        if n < 1 || n > 100 then
          .error "invalid parameter limit: must be between 1 and 100"
        else .ok n
  match limitStep with
  | .error e => .error e
  | .ok limit =>
    let rawC := goTrimSpace rawCursor
    if rawC == "" then .ok (limit, none)
    else if !(isUUIDv7 rawC) then
      .error "invalid parameter cursor: must be a UUIDv7"
    else .ok (limit, some rawC)

/-- The handler's mapping of a pagination-parse failure: every parse
error is written as an HTTP 400 problem (the validation class); a
successful parse proceeds to the service. -/
def cursorPaginationHTTPStatus (r : Except String (Int × Option String)) :
    Option Nat :=
  match r with
  | .error _ => some 400
  | .ok _ => none

/-- C7: an omitted limit defaults to 20; an integer limit outside
[1, 100] makes the pagination call fail with the 400 validation
rejection; an in-range limit is accepted unchanged, and the service's
`normalizeCursorLimit` then leaves it unchanged as well. -/
theorem pagination_limit_rules (isUUIDv7 : String → Bool)
    (rawLimit rawCursor : String) :
    (goTrimSpace rawLimit = "" → goTrimSpace rawCursor = "" →
      parseCursorPagination isUUIDv7 rawLimit rawCursor = .ok (20, none)) ∧
    (∀ n, goTrimSpace rawLimit ≠ "" →
      goAtoi (goTrimSpace rawLimit) = some n → (n < 1 ∨ 100 < n) →
      parseCursorPagination isUUIDv7 rawLimit rawCursor =
        .error "invalid parameter limit: must be between 1 and 100" ∧
      cursorPaginationHTTPStatus
        (parseCursorPagination isUUIDv7 rawLimit rawCursor) = some 400) ∧
    (∀ n, goTrimSpace rawLimit ≠ "" →
      goAtoi (goTrimSpace rawLimit) = some n → 1 ≤ n → n ≤ 100 →
      goTrimSpace rawCursor = "" →
      parseCursorPagination isUUIDv7 rawLimit rawCursor = .ok (n, none)) ∧
    (∀ n, 1 ≤ n → n ≤ 100 → normalizeCursorLimit n = n.toNat) := by
  refine ⟨?_, ?_, ?_, ?_⟩
  · intro hlim hcur
    unfold parseCursorPagination
    simp [hlim, hcur]
  · intro n hne hatoi hout
    have hblank : (goTrimSpace rawLimit == "") = false := by
      simpa using hne
    have hrange : (n < 1 || n > 100) = true := by
      rcases hout with h | h <;> simp [h]
    constructor
    · unfold parseCursorPagination
      simp [hblank, hatoi, hrange]
    · unfold parseCursorPagination
      simp [hblank, hatoi, hrange, cursorPaginationHTTPStatus]
  · intro n hne hatoi hlo hhi hcur
    have hblank : (goTrimSpace rawLimit == "") = false := by
      simpa using hne
    have hrange : (n < 1 || n > 100) = false := by
      simp only [Bool.or_eq_false_iff, decide_eq_false_iff_not]
      omega
    unfold parseCursorPagination
    simp [hblank, hatoi, hrange, hcur]
  · intro n hlo hhi
    exact normalizeCursorLimit_of_range hlo hhi

/-- Witness for C7: blank limit defaults to 20; limits 0 and 101 are
rejected with the 400 validation problem; limit 50 passes through the
parser and the service normalizer unchanged. -/
theorem pagination_limit_rules_witness :
    parseCursorPagination acceptAll "" "" = .ok (20, none) ∧
    parseCursorPagination acceptAll "0" "" =
      .error "invalid parameter limit: must be between 1 and 100" ∧
    cursorPaginationHTTPStatus (parseCursorPagination acceptAll "101" "") =
      some 400 ∧
    parseCursorPagination acceptAll "50" "" = .ok (50, none) ∧
    normalizeCursorLimit 50 = 50 :=
  ⟨(pagination_limit_rules acceptAll "" "").1 (by decide) (by decide),
   ((pagination_limit_rules acceptAll "0" "").2.1 0 (by decide) (by decide)
     (by omega)).1,
   ((pagination_limit_rules acceptAll "101" "").2.1 101 (by decide)
     (by decide) (by omega)).2,
   (pagination_limit_rules acceptAll "50" "").2.2.1 50 (by decide) (by decide)
     (by omega) (by omega) (by decide),
   (pagination_limit_rules acceptAll "50" "").2.2.2 50 (by omega) (by omega)⟩

/-- `Service.UpdateClinicDentistRole`: at least one role flag must be
supplied; `sql.ErrNoRows` from the COALESCE update (no active link)
becomes `NotFound`. -/
def Service.UpdateClinicDentistRole (db : Database)
    (clinicID dentistID : String) (isAdmin isLegalRep : Option Bool) :
    Except DomainError (ClinicDentist × Database) :=
  if isAdmin.isNone && isLegalRep.isNone then
    .error (.validation "at least one role field must be provided")
  else
    match Query.UpdateClinicDentistRole db clinicID dentistID
        (optionalBool isAdmin) (optionalBool isLegalRep) with
    | (none, _) => .error (.notFound "clinic dentist active link not found")
    | (some rel, db') => .ok (rel, db')

/-- C8: the COALESCE role update touches only active rows of the pair
(of which the schema invariant allows at most one); on the touched row
exactly the supplied flags change, unspecified flags and the remaining
columns keep their values, and every other row — ended rows included —
is returned unchanged. -/
theorem updateClinicDentistRole_frame (db : Database)
    (clinicID dentistID : String) (isAdmin isLegalRep : Option Bool)
    (hinv : pairActiveUnique db) :
    db.clinicDentists.countP (fun r => r.clinicID == clinicID &&
      r.dentistID == dentistID && r.endedAt.isNone) ≤ 1 ∧
    (Query.UpdateClinicDentistRole db clinicID dentistID isAdmin
      isLegalRep).2.clinicDentists.length = db.clinicDentists.length ∧
    (∀ (i : Nat) (r r' : ClinicDentist), db.clinicDentists[i]? = some r →
      (Query.UpdateClinicDentistRole db clinicID dentistID isAdmin
        isLegalRep).2.clinicDentists[i]? = some r' →
      ((r.clinicID == clinicID && r.dentistID == dentistID &&
          r.endedAt.isNone) = false → r' = r) ∧
      ((r.clinicID == clinicID && r.dentistID == dentistID &&
          r.endedAt.isNone) = true →
        r'.isAdmin = isAdmin.getD r.isAdmin ∧
        r'.isLegalRepresentative = isLegalRep.getD r.isLegalRepresentative ∧
        r'.startedAt = r.startedAt ∧ r'.clinicID = r.clinicID ∧
        r'.dentistID = r.dentistID ∧ r'.endedAt = r.endedAt)) := by
  refine ⟨countP_activePair_le_one hinv clinicID dentistID, ?_, ?_⟩
  · unfold Query.UpdateClinicDentistRole
    simp
  · intro i r r' hr hr'
    unfold Query.UpdateClinicDentistRole at hr'
    simp only [List.getElem?_map, hr, Option.map_some', Option.some.injEq]
      at hr'
    constructor
    · intro hmiss
      rw [hmiss] at hr'
      simp at hr'
      exact hr'.symm
    · intro hhit
      rw [hhit] at hr'
      simp only [if_true] at hr'
      subst hr'
      simp only [Bool.and_eq_true, beq_iff_eq, Option.isNone_iff_eq_none]
        at hhit
      exact ⟨rfl, rfl, rfl, rfl, rfl, rfl⟩

/-- Concrete fixture: one active and one ended affiliation row for the
same pair. -/
def sampleDbRoleRows : Database :=
  { people := [], clinics := [], dentists := []
    clinicDentists := [{ clinicID := "c1", dentistID := "d1"
                         isAdmin := false, isLegalRepresentative := true
                         startedAt := 4, endedAt := none },
                       { clinicID := "c1", dentistID := "d1"
                         isAdmin := false, isLegalRepresentative := false
                         startedAt := 1, endedAt := some 3 }]
    bankAccounts := [] }

/-- Witness for C8: updating only `is_admin` on a pair with one active
and one ended row changes that flag on the active row, keeps its other
columns and leaves the ended row untouched. -/
theorem updateClinicDentistRole_frame_witness :
    sampleDbRoleRows.clinicDentists.countP (fun r => r.clinicID == "c1" &&
      r.dentistID == "d1" && r.endedAt.isNone) ≤ 1 ∧
    (Query.UpdateClinicDentistRole sampleDbRoleRows "c1" "d1" (some true)
      none).2.clinicDentists.length =
      sampleDbRoleRows.clinicDentists.length ∧
    (Query.UpdateClinicDentistRole sampleDbRoleRows "c1" "d1" (some true)
      none).2.clinicDentists =
      [{ clinicID := "c1", dentistID := "d1", isAdmin := true
         isLegalRepresentative := true, startedAt := 4, endedAt := none },
       { clinicID := "c1", dentistID := "d1", isAdmin := false
         isLegalRepresentative := false, startedAt := 1, endedAt := some 3 }] :=
  ⟨(updateClinicDentistRole_frame sampleDbRoleRows "c1" "d1" (some true) none
      (by decide)).1,
   (updateClinicDentistRole_frame sampleDbRoleRows "c1" "d1" (some true) none
      (by decide)).2.1,
   by decide⟩

/-- C10: an absent or whitespace-only optional string is stored as SQL
NULL and any other value is stored trimmed; in particular a
whitespace-only e-mail never reaches e-mail validation — `CreateClinic`
behaves identically whether such an e-mail was supplied or the field
was omitted, whatever the injected validator says. -/
theorem optional_blank_fields_treated_absent (s e : String)
    (validCNPJ validEmail : String → Bool) (gen : Nat → String)
    (db : Database) (input : CreateClinicInput) :
    optionalString none = none ∧
    (goTrimSpace s = "" → optionalString (some s) = none) ∧
    (goTrimSpace s ≠ "" → optionalString (some s) = some (goTrimSpace s)) ∧
    (goTrimSpace e = "" →
      Service.CreateClinic validCNPJ validEmail gen db
        { input with email := some e } =
      Service.CreateClinic validCNPJ validEmail gen db
        { input with email := none }) := by
  refine ⟨rfl, ?_, ?_, ?_⟩
  · intro h
    simp [optionalString, h]
  · intro h
    simp [optionalString, h]
  · intro h
    unfold Service.CreateClinic
    simp [optionalString, h]

/-- Witness for C10: the whitespace-only string `"  "`. -/
theorem optional_blank_fields_treated_absent_witness :
    optionalString (some "  ") = none ∧
    optionalString (some " x ") = some (goTrimSpace " x ") ∧
    Service.CreateClinic acceptAll acceptAll genFresh sampleDbDupePerson
        { sampleCreateClinicInput with email := some "  " } =
      Service.CreateClinic acceptAll acceptAll genFresh sampleDbDupePerson
        { sampleCreateClinicInput with email := none } :=
  ⟨(optional_blank_fields_treated_absent "  " "  " acceptAll acceptAll
      genFresh sampleDbDupePerson sampleCreateClinicInput).2.1 (by decide),
   (optional_blank_fields_treated_absent " x " "  " acceptAll acceptAll
      genFresh sampleDbDupePerson sampleCreateClinicInput).2.2.1 (by decide),
   (optional_blank_fields_treated_absent "  " "  " acceptAll acceptAll
      genFresh sampleDbDupePerson sampleCreateClinicInput).2.2.2 (by decide)⟩
